import Mathlib

/-!
Shallow embedding of the MAX7219 LED-display driver crate
(`src/lib.rs`, `src/error.rs`, `src/registers.rs`, `src/driver/max7219.rs`).

Modelling conventions:
* `u8` and `usize` values are `Nat`; no arithmetic in the modelled paths can
  overflow (the only subtraction, `limit - 1`, is guarded by `1 <= limit`).
* The SPI bus (`embedded_hal::spi::SpiDevice`) is modelled by `SpiState`: a
  trace of all byte sequences handed to `SpiDevice::write`, plus an oracle
  `failAt` telling whether the k-th write reports a transport error.  A failed
  write is still recorded in the trace (the bytes were put on the bus); the
  driver maps any transport error to `Error.SpiError` (`impl From` in
  `src/error.rs`).
* Fallible operations return `Outcome`: `ok`/`err` mirror `Result<(), Error>`
  (carrying the driver state after the call), and `panicked` models a Rust
  panic from out-of-bounds indexing or slicing, carrying the state at the
  moment of the panic.
-/

/-- Maximum number of daisy-chained displays supported (`MAX_DISPLAYS` in `src/lib.rs`). -/
def MAX_DISPLAYS : Nat := 8

/-- Number of digits controlled by one MAX7219 (`NUM_DIGITS` in `src/lib.rs`). -/
def NUM_DIGITS : Nat := 8

/-- Error enum from `src/error.rs`. -/
inductive Error where
  | InvalidDeviceCount
  | InvalidScanLimit
  | InvalidRegister
  | InvalidDeviceIndex
  | InvalidDigit
  | InvalidIntensity
  | SpiError
deriving DecidableEq, Repr

/-- Register enum from `src/registers.rs`. -/
inductive Register where
  | NoOp
  | Digit0
  | Digit1
  | Digit2
  | Digit3
  | Digit4
  | Digit5
  | Digit6
  | Digit7
  | DecodeMode
  | Intensity
  | ScanLimit
  | Shutdown
  | DisplayTest
deriving DecidableEq, Repr

/-- Fixed one-byte address of each register (`Register::addr`, the `repr(u8)` discriminants). -/
def Register.addr : Register → Nat
  | .NoOp => 0x00
  | .Digit0 => 0x01
  | .Digit1 => 0x02
  | .Digit2 => 0x03
  | .Digit3 => 0x04
  | .Digit4 => 0x05
  | .Digit5 => 0x06
  | .Digit6 => 0x07
  | .Digit7 => 0x08
  | .DecodeMode => 0x09
  | .Intensity => 0x0A
  | .ScanLimit => 0x0B
  | .Shutdown => 0x0C
  | .DisplayTest => 0x0F

/-- Sequence of the eight digit registers, ascending (`Register::digits`). -/
def Register.digits : List Register :=
  [.Digit0, .Digit1, .Digit2, .Digit3, .Digit4, .Digit5, .Digit6, .Digit7]

/-- Decode-mode enum from `src/registers.rs`. -/
inductive DecodeMode where
  | NoDecode
  | Digit0
  | Digits0To3
  | AllDigits
deriving DecidableEq, Repr

/-- Fixed one-byte value of each decode mode (`DecodeMode::value`, the `repr(u8)` discriminants). -/
def DecodeMode.value : DecodeMode → Nat
  | .NoDecode => 0x00
  | .Digit0 => 0x01
  | .Digits0To3 => 0x0F
  | .AllDigits => 0xFF

/-- Model of the SPI bus collaborator: the oracle `failAt k` says whether the
k-th `write` call reports a transport error, and `trace` records every byte
sequence handed to `write` so far. -/
structure SpiState where
  failAt : Nat → Bool
  trace : List (List Nat)

/-- One `SpiDevice::write` call: the byte sequence is appended to the trace and
the oracle decides success; a transport error is surfaced as `Error.SpiError`
(the `From` impl in `src/error.rs` collapses all transport errors to it). -/
def SpiState.write (s : SpiState) (bytes : List Nat) : Except Error Unit × SpiState :=
  let s' : SpiState := { s with trace := s.trace ++ [bytes] }
  if s.failAt s.trace.length then (Except.error Error.SpiError, s') else (Except.ok (), s')

/-- Driver state: the struct `Max7219<SPI>` from `src/driver/max7219.rs`. -/
structure Max7219 where
  spi : SpiState
  buffer : List Nat
  device_count : Nat

/-- Result of one fallible driver operation: `ok`/`err` mirror
`Result<(), Error>` together with the driver state after the call, and
`panicked` models a Rust panic (out-of-bounds index or slice), carrying the
state at the moment of the panic. -/
inductive Outcome where
  | ok (m : Max7219)
  | err (e : Error) (m : Max7219)
  | panicked (m : Max7219)

/-- Driver state carried by an outcome, whatever its kind. -/
def Outcome.mstate : Outcome → Max7219
  | .ok m => m
  | .err _ m => m
  | .panicked m => m

/-- Sequencing operator mirroring Rust's `?`: errors and panics cut the rest short. -/
def andThen (x : Outcome) (f : Max7219 → Outcome) : Outcome :=
  match x with
  | .ok m => f m
  | .err e m => .err e m
  | .panicked m => .panicked m

/-- Constructor `Max7219::new`: device count defaults to 1, buffer is zeroed. -/
def Max7219.new (spi : SpiState) : Max7219 :=
  { spi := spi, device_count := 1, buffer := List.replicate (MAX_DISPLAYS * 2) 0 }

/-- Builder `Max7219::with_device_count`: rejects only counts above `MAX_DISPLAYS`. -/
def Max7219.with_device_count (m : Max7219) (count : Nat) : Except Error Max7219 :=
  if count > MAX_DISPLAYS then Except.error Error.InvalidDeviceCount
  else Except.ok { m with device_count := count }

/-- Body of `Max7219::write_device_register`.  The index check comes first;
then the buffer is zeroed, the pair is placed at offset `device_index * 2`
(each `self.buffer[...] = ...` panics when the offset is out of bounds), and
the slice `&self.buffer[0..device_count * 2]` (which panics when its end
exceeds the buffer length) is written to the bus. -/
def Max7219.write_device_register (m : Max7219) (device_index : Nat)
    (reg : Register) (data : Nat) : Outcome :=
  if device_index ≥ m.device_count then
    .err .InvalidDeviceIndex m
  else
    let m0 : Max7219 := { m with buffer := List.replicate (MAX_DISPLAYS * 2) 0 }
    let offset := device_index * 2
    if offset < m0.buffer.length then
      let m1 : Max7219 := { m0 with buffer := m0.buffer.set offset reg.addr }
      if offset + 1 < m1.buffer.length then
        let m2 : Max7219 := { m1 with buffer := m1.buffer.set (offset + 1) data }
        if m2.device_count * 2 ≤ m2.buffer.length then
          let r := m2.spi.write (m2.buffer.take (m2.device_count * 2))
          match r.1 with
          | .error e => .err e { m2 with spi := r.2 }
          | .ok _ => .ok { m2 with spi := r.2 }
        else .panicked m2
      else .panicked m1
    else .panicked m0

/-- Fill loop of `Max7219::write_all_registers`
(`for (i, &(reg, data)) in ops.iter().rev().enumerate()`), called here on the
already-reversed list, with `i` the running pair index.  Each array store
panics when its offset is out of bounds; a panic returns the buffer as filled
so far on the error side. -/
def fillOps : List Nat → Nat → List (Register × Nat) → Except (List Nat) (List Nat)
  | buf, _, [] => .ok buf
  | buf, i, (reg, data) :: rest =>
    let offset := i * 2
    if offset < buf.length then
      let buf1 := buf.set offset reg.addr
      if offset + 1 < buf1.length then
        fillOps (buf1.set (offset + 1) data) (i + 1) rest
      else .error buf1
    else .error buf

/-- Body of `Max7219::write_all_registers`: zero the buffer, fill the
caller-ordered pairs in reverse, then write the first `device_count * 2` bytes
(the slice `&self.buffer[..len]` panics when `len` exceeds the buffer length). -/
def Max7219.write_all_registers (m : Max7219) (ops : List (Register × Nat)) : Outcome :=
  match fillOps (List.replicate (MAX_DISPLAYS * 2) 0) 0 ops.reverse with
  | .error pbuf => .panicked { m with buffer := pbuf }
  | .ok buf =>
    let m1 : Max7219 := { m with buffer := buf }
    if m1.device_count * 2 ≤ m1.buffer.length then
      let r := m1.spi.write (m1.buffer.take (m1.device_count * 2))
      match r.1 with
      | .error e => .err e { m1 with spi := r.2 }
      | .ok _ => .ok { m1 with spi := r.2 }
    else .panicked m1

/-- Shared body of every `*_all` operation in the source: build
`[(reg, data); MAX_DISPLAYS]` and call `write_all_registers` on the slice
`&ops[..self.device_count]` (which panics when `device_count` exceeds
`MAX_DISPLAYS`). -/
def Max7219.broadcast (m : Max7219) (reg : Register) (data : Nat) : Outcome :=
  let ops := List.replicate MAX_DISPLAYS (reg, data)
  if m.device_count ≤ MAX_DISPLAYS then
    m.write_all_registers (ops.take m.device_count)
  else .panicked m

/-- `Max7219::power_on`: shutdown register, data `0x01`, to the whole chain. -/
def Max7219.power_on (m : Max7219) : Outcome :=
  m.broadcast .Shutdown 0x01

/-- `Max7219::power_off`: shutdown register, data `0x00`, to the whole chain. -/
def Max7219.power_off (m : Max7219) : Outcome :=
  m.broadcast .Shutdown 0x00

/-- `Max7219::power_on_device`. -/
def Max7219.power_on_device (m : Max7219) (device_index : Nat) : Outcome :=
  m.write_device_register device_index .Shutdown 0x01

/-- `Max7219::power_off_device`. -/
def Max7219.power_off_device (m : Max7219) (device_index : Nat) : Outcome :=
  m.write_device_register device_index .Shutdown 0x00

/-- `Max7219::test_device`. -/
def Max7219.test_device (m : Max7219) (device_index : Nat) (enable : Bool) : Outcome :=
  let data := if enable then 0x01 else 0x00
  m.write_device_register device_index .DisplayTest data

/-- `Max7219::test_all`. -/
def Max7219.test_all (m : Max7219) (enable : Bool) : Outcome :=
  let data := if enable then 0x01 else 0x00
  m.broadcast .DisplayTest data

/-- Loop of `Max7219::clear_display`: one `write_device_register` per digit
register, aborting on the first error (the `?` operator). -/
def Max7219.clearDisplayLoop : Max7219 → Nat → List Register → Outcome
  | m, _, [] => .ok m
  | m, device_index, r :: rest =>
    match m.write_device_register device_index r 0x00 with
    | .ok m' => clearDisplayLoop m' device_index rest
    | .err e m' => .err e m'
    | .panicked m' => .panicked m'

/-- `Max7219::clear_display`. -/
def Max7219.clear_display (m : Max7219) (device_index : Nat) : Outcome :=
  m.clearDisplayLoop device_index Register.digits

/-- Loop of `Max7219::clear_all`: one broadcast per digit register, aborting on
the first error (the `?` operator). -/
def Max7219.clearAllLoop : Max7219 → List Register → Outcome
  | m, [] => .ok m
  | m, r :: rest =>
    match m.broadcast r 0x00 with
    | .ok m' => clearAllLoop m' rest
    | .err e m' => .err e m'
    | .panicked m' => .panicked m'

/-- `Max7219::clear_all`. -/
def Max7219.clear_all (m : Max7219) : Outcome :=
  m.clearAllLoop Register.digits

/-- `Max7219::set_intensity`: range check, then a single-device write. -/
def Max7219.set_intensity (m : Max7219) (device_index : Nat) (intensity : Nat) : Outcome :=
  if intensity > 0x0F then .err .InvalidIntensity m
  else m.write_device_register device_index .Intensity intensity

/-- `Max7219::set_intensity_all`: no range check. -/
def Max7219.set_intensity_all (m : Max7219) (intensity : Nat) : Outcome :=
  m.broadcast .Intensity intensity

/-- `Max7219::set_device_scan_limit`: `(1..=8).contains(&limit)` check, then a
single-device write of `limit - 1`. -/
def Max7219.set_device_scan_limit (m : Max7219) (device_index : Nat) (limit : Nat) : Outcome :=
  if ¬ (1 ≤ limit ∧ limit ≤ 8) then .err .InvalidScanLimit m
  else m.write_device_register device_index .ScanLimit (limit - 1)

/-- `Max7219::set_scan_limit_all`: same range check, then a broadcast of `limit - 1`. -/
def Max7219.set_scan_limit_all (m : Max7219) (limit : Nat) : Outcome :=
  if ¬ (1 ≤ limit ∧ limit ≤ 8) then .err .InvalidScanLimit m
  else m.broadcast .ScanLimit (limit - 1)

/-- `Max7219::set_device_decode_mode`. -/
def Max7219.set_device_decode_mode (m : Max7219) (device_index : Nat) (mode : DecodeMode) : Outcome :=
  m.write_device_register device_index .DecodeMode mode.value

/-- `Max7219::set_decode_mode_all`. -/
def Max7219.set_decode_mode_all (m : Max7219) (mode : DecodeMode) : Outcome :=
  m.broadcast .DecodeMode mode.value

/-- `Max7219::init`: power on, disable display test, scan limit `NUM_DIGITS`,
decode mode `NoDecode`, clear all; each step short-circuits on error. -/
def Max7219.init (m : Max7219) : Outcome :=
  andThen m.power_on fun m1 =>
  andThen (m1.test_all false) fun m2 =>
  andThen (m2.set_scan_limit_all NUM_DIGITS) fun m3 =>
  andThen (m3.set_decode_mode_all DecodeMode.NoDecode) fun m4 =>
  m4.clear_all

/-- Bus writes issued by an operation: the part of the trace beyond what was
already there before the call. -/
def writesOf (m : Max7219) (res : Outcome) : List (List Nat) :=
  res.mstate.spi.trace.drop m.spi.trace.length

/-- Byte sequence of a broadcast transaction on an `n`-device chain: `n`
copies of the pair `[reg.addr, data]`. -/
def expectedBroadcast (n : Nat) (reg : Register) (data : Nat) : List Nat :=
  (List.replicate n [reg.addr, data]).flatten

/-- Driver states reachable by construction plus any sequence of accepted
`with_device_count` reconfigurations. -/
inductive Reached : Max7219 → Prop
  | base (spi : SpiState) : Reached (Max7219.new spi)
  | reconfig (m m' : Max7219) (count : Nat) :
      Reached m → m.with_device_count count = Except.ok m' → Reached m'

def spi0 : SpiState := { failAt := fun _ => false, trace := [] }

/-- Buffer contents after a valid single-device write: zeros with the pair at
offset `device_index * 2`. -/
def wdrBuffer (i : Nat) (r : Register) (d : Nat) : List Nat :=
  ((List.replicate (MAX_DISPLAYS * 2) 0).set (i * 2) r.addr).set (i * 2 + 1) d

/-- Driver state after a bus write of the first `device_count * 2` bytes of `B`. -/
def afterWrite (m : Max7219) (B : List Nat) : Max7219 :=
  { m with
    buffer := B,
    spi := ⟨m.spi.failAt, m.spi.trace ++ [B.take (m.device_count * 2)]⟩ }

/-- Per-operation trace discipline: device count and oracle survive, the trace
only grows, and every appended transaction has `2 * device_count` bytes. -/
def StepOK (m : Max7219) (res : Outcome) : Prop :=
  res.mstate.device_count = m.device_count ∧
  res.mstate.spi.failAt = m.spi.failAt ∧
  ∃ new, res.mstate.spi.trace = m.spi.trace ++ new ∧
    ∀ w ∈ new, w.length = 2 * m.device_count

/-- Sequence of broadcast steps, mirroring a chain of `?`-separated `*_all`
calls in the source. -/
def Max7219.runSteps : Max7219 → List (Register × Nat) → Outcome
  | m, [] => .ok m
  | m, (r, d) :: rest =>
    match m.broadcast r d with
    | .ok m' => runSteps m' rest
    | .err e m' => .err e m'
    | .panicked m' => .panicked m'

/-- Steps performed by `init`, in source order: power on, display test off,
scan limit `NUM_DIGITS - 1`, decode mode `NoDecode`, then one clear per digit. -/
def initSteps : List (Register × Nat) :=
  [(Register.Shutdown, 0x01), (Register.DisplayTest, 0x00),
   (Register.ScanLimit, 7), (Register.DecodeMode, 0x00)] ++
    Register.digits.map (fun r => (r, 0))

/-- Transactions of a broadcast-step sequence on an `n`-device chain. -/
def expectedWrites (n : Nat) (steps : List (Register × Nat)) : List (List Nat) :=
  steps.map (fun p => expectedBroadcast n p.1 p.2)

/-- Concrete driver used in witnesses: fresh state on a 2-device chain with an
always-succeeding bus. -/
def demoDriver : Max7219 :=
  { spi := spi0, buffer := List.replicate (MAX_DISPLAYS * 2) 0, device_count := 2 }

/-- Driver state reached by `new` followed by `with_device_count 0`. -/
def badDriver : Max7219 :=
  { spi := spi0, buffer := List.replicate (MAX_DISPLAYS * 2) 0, device_count := 0 }


/-! List-level helper lemmas. -/

lemma getD_set_self (l : List Nat) (i a d : Nat) (h : i < l.length) :
    (l.set i a).getD i d = a := by
  simp [List.getD, List.getElem?_set_self, h]

lemma getD_set_ne (l : List Nat) (i j a d : Nat) (h : i ≠ j) :
    (l.set i a).getD j d = l.getD j d := by
  simp [List.getD, List.getElem?_set_ne h]

lemma getD_replicate {α : Type} (n j : Nat) (a d : α) :
    (List.replicate n a).getD j d = if j < n then a else d := by
  by_cases h : j < n
  · rw [if_pos h, List.getD_eq_getElem _ _ (by simpa using h), List.getElem_replicate]
  · rw [if_neg h]
    have hle : (List.replicate n a).length ≤ j := by simpa using Nat.le_of_not_lt h
    simp [List.getD, List.getElem?_eq_none hle]

lemma getD_take {α : Type} (l : List α) (k j : Nat) (d : α) (h : j < k) :
    (l.take k).getD j d = l.getD j d := by
  simp [List.getD, List.getElem?_take, h]

lemma getD_append_left (t l : List Nat) (j d : Nat) (h : j < t.length) :
    (t ++ l).getD j d = t.getD j d := by
  simp [List.getD, List.getElem?_append_left h]

lemma getD_reverse {α : Type} (l : List α) (k : Nat) (d : α) (h : k < l.length) :
    l.reverse.getD k d = l.getD (l.length - 1 - k) d := by
  rw [List.getD_eq_getElem _ _ (by simpa using h), List.getD_eq_getElem _ _ (by omega),
    List.getElem_reverse]

lemma list_ext_getD (l1 l2 : List Nat) (h : l1.length = l2.length)
    (hj : ∀ j, j < l1.length → l1.getD j 0 = l2.getD j 0) : l1 = l2 := by
  apply List.ext_getElem h
  intro j h1 h2
  have := hj j h1
  rwa [List.getD_eq_getElem _ _ h1, List.getD_eq_getElem _ _ h2] at this

/-! Characterization of the fill loop. -/

lemma fillOps_ok (l : List (Register × Nat)) : ∀ (buf : List Nat) (i : Nat),
    2 * (i + l.length) ≤ buf.length →
    ∃ buf', fillOps buf i l = .ok buf' ∧ buf'.length = buf.length ∧
      (∀ j, (j < i * 2 ∨ (i + l.length) * 2 ≤ j) → buf'.getD j 0 = buf.getD j 0) ∧
      (∀ k, k < l.length →
        buf'.getD ((i + k) * 2) 0 = (l.getD k (Register.NoOp, 0)).1.addr ∧
        buf'.getD ((i + k) * 2 + 1) 0 = (l.getD k (Register.NoOp, 0)).2) := by
  induction l with
  | nil =>
    intro buf i _
    exact ⟨buf, rfl, rfl, fun _ _ => rfl, fun k hk => absurd hk (by simp)⟩
  | cons p rest ih =>
    intro buf i hlen
    obtain ⟨r, d⟩ := p
    have hlen0 : 2 * (i + (rest.length + 1)) ≤ buf.length := by
      simpa using hlen
    have h0 : i * 2 < buf.length := by omega
    have h1 : i * 2 + 1 < (buf.set (i * 2) r.addr).length := by
      simp only [List.length_set]; omega
    have step : fillOps buf i ((r, d) :: rest) =
        fillOps ((buf.set (i * 2) r.addr).set (i * 2 + 1) d) (i + 1) rest := by
      simp only [fillOps, if_pos h0, if_pos h1]
    obtain ⟨buf', heq, hlen', houts, hpairs⟩ :=
      ih ((buf.set (i * 2) r.addr).set (i * 2 + 1) d) (i + 1)
        (by simp only [List.length_set]; omega)
    simp only [List.length_set] at hlen'
    refine ⟨buf', by rw [step, heq], hlen', ?_, ?_⟩
    · intro j hj
      have hj2 : j < i * 2 ∨ (i + (rest.length + 1)) * 2 ≤ j := by
        simpa using hj
      have hj' : j < (i + 1) * 2 ∨ ((i + 1) + rest.length) * 2 ≤ j := by omega
      rw [houts j hj', getD_set_ne _ _ _ _ _ (by omega), getD_set_ne _ _ _ _ _ (by omega)]
    · intro k hk
      cases k with
      | zero =>
        constructor
        · rw [show (i + 0) * 2 = i * 2 by omega, houts (i * 2) (by left; omega),
            getD_set_ne _ _ _ _ _ (by omega), getD_set_self _ _ _ _ h0]
          rfl
        · rw [show (i + 0) * 2 + 1 = i * 2 + 1 by omega, houts (i * 2 + 1) (by left; omega),
            getD_set_self _ _ _ _ (by simpa using h1)]
          rfl
      | succ k' =>
        have harith1 : (i + (k' + 1)) * 2 = ((i + 1) + k') * 2 := by omega
        rw [harith1]
        simpa [List.getD_cons_succ] using
          hpairs k' (by simp only [List.length_cons] at hk; omega)

lemma fillOps_err (l : List (Register × Nat)) : ∀ (buf : List Nat) (i : Nat),
    l ≠ [] → buf.length + 1 < 2 * (i + l.length) →
    ∃ b, fillOps buf i l = .error b := by
  induction l with
  | nil => intro _ _ h _; exact absurd rfl h
  | cons p rest ih =>
    intro buf i _ hlen
    obtain ⟨r, d⟩ := p
    by_cases h0 : i * 2 < buf.length
    · by_cases h1 : i * 2 + 1 < (buf.set (i * 2) r.addr).length
      · cases rest with
        | nil =>
          simp only [List.length_set] at h1
          simp only [List.length_cons, List.length_nil] at hlen
          omega
        | cons q qs =>
          obtain ⟨b, hb⟩ := ih ((buf.set (i * 2) r.addr).set (i * 2 + 1) d) (i + 1)
            (by simp)
            (by
              simp only [List.length_set, List.length_cons]
              simp only [List.length_cons] at hlen
              omega)
          exact ⟨b, by simp only [fillOps, if_pos h0, if_pos h1]; exact hb⟩
      · exact ⟨buf.set (i * 2) r.addr, by simp only [fillOps, if_pos h0, if_neg h1]⟩
    · exact ⟨buf, by simp only [fillOps, if_neg h0]⟩

/-! Broadcast transaction bytes. -/

lemma expectedBroadcast_succ (n : Nat) (r : Register) (d : Nat) :
    expectedBroadcast (n + 1) r d = r.addr :: d :: expectedBroadcast n r d := by
  simp [expectedBroadcast, List.replicate_succ]

lemma expectedBroadcast_length (n : Nat) (r : Register) (d : Nat) :
    (expectedBroadcast n r d).length = 2 * n := by
  induction n with
  | zero => rfl
  | succ k ih => rw [expectedBroadcast_succ]; simp [ih]; omega

lemma expectedBroadcast_getD (n : Nat) (r : Register) (d : Nat) :
    ∀ j, j < 2 * n →
      (expectedBroadcast n r d).getD j 0 = if j % 2 = 0 then r.addr else d := by
  induction n with
  | zero => intro j hj; omega
  | succ k ih =>
    intro j hj
    rw [expectedBroadcast_succ]
    match j with
    | 0 => rfl
    | 1 => rfl
    | (j' + 2) =>
      have hmod : (j' + 2) % 2 = j' % 2 := by omega
      simp only [List.getD_cons_succ]
      rw [ih j' (by omega), hmod]

/-! Operation-level spec lemmas. -/



lemma write_device_register_invalid (m : Max7219) (i : Nat) (r : Register) (d : Nat)
    (h : m.device_count ≤ i) :
    m.write_device_register i r d = .err .InvalidDeviceIndex m := by
  simp [Max7219.write_device_register, h]

lemma write_device_register_valid (m : Max7219) (i : Nat) (r : Register) (d : Nat)
    (hi : i < m.device_count) (hn : m.device_count ≤ MAX_DISPLAYS) :
    m.write_device_register i r d =
      (if m.spi.failAt m.spi.trace.length then
        Outcome.err Error.SpiError (afterWrite m (wdrBuffer i r d))
       else Outcome.ok (afterWrite m (wdrBuffer i r d))) := by
  have hge : ¬ i ≥ m.device_count := by omega
  have c1 : i * 2 < (List.replicate (MAX_DISPLAYS * 2) (0 : Nat)).length := by
    simp only [List.length_replicate]; omega
  have c2 : i * 2 + 1 <
      ((List.replicate (MAX_DISPLAYS * 2) (0 : Nat)).set (i * 2) r.addr).length := by
    simp only [List.length_set, List.length_replicate]; omega
  have c3 : m.device_count * 2 ≤
      ((((List.replicate (MAX_DISPLAYS * 2) (0 : Nat)).set (i * 2) r.addr)).set
        (i * 2 + 1) d).length := by
    simp only [List.length_set, List.length_replicate]; omega
  simp only [Max7219.write_device_register, if_neg hge, if_pos c1, if_pos c2]
  rw [if_pos c3]
  by_cases hb : m.spi.failAt m.spi.trace.length <;>
    simp [SpiState.write, hb, afterWrite, wdrBuffer]

lemma write_all_registers_ok (m : Max7219) (ops : List (Register × Nat))
    (hops : ops.length ≤ MAX_DISPLAYS) (hn : m.device_count ≤ MAX_DISPLAYS) :
    ∃ B, B.length = MAX_DISPLAYS * 2 ∧
      (∀ j, ops.length * 2 ≤ j → B.getD j 0 = 0) ∧
      (∀ k, k < ops.length →
        B.getD (k * 2) 0 = (ops.getD (ops.length - 1 - k) (Register.NoOp, 0)).1.addr ∧
        B.getD (k * 2 + 1) 0 = (ops.getD (ops.length - 1 - k) (Register.NoOp, 0)).2) ∧
      m.write_all_registers ops =
        (if m.spi.failAt m.spi.trace.length then
          Outcome.err Error.SpiError (afterWrite m B) else Outcome.ok (afterWrite m B)) := by
  obtain ⟨B, hfill, hBlen, houts, hpairs⟩ :=
    fillOps_ok ops.reverse (List.replicate (MAX_DISPLAYS * 2) 0) 0
      (by simp only [List.length_reverse, List.length_replicate]; omega)
  simp only [List.length_replicate] at hBlen
  refine ⟨B, hBlen, ?_, ?_, ?_⟩
  · intro j hj
    rw [houts j (by simp only [List.length_reverse]; omega), getD_replicate]
    split <;> rfl
  · intro k hk
    have h1 := hpairs k (by simpa using hk)
    rw [show (0 + k) * 2 = k * 2 by omega] at h1
    rw [getD_reverse ops k (Register.NoOp, 0) hk] at h1
    exact h1
  · have c3 : m.device_count * 2 ≤ B.length := by omega
    simp only [Max7219.write_all_registers, hfill]
    rw [if_pos c3]
    by_cases hb : m.spi.failAt m.spi.trace.length <;>
      simp [SpiState.write, hb, afterWrite]

/-- Effect of one broadcast-shaped (`*_all`) operation: exactly one transaction
of `expectedBroadcast` bytes, success decided by the oracle. -/
lemma broadcast_spec (m : Max7219) (r : Register) (d : Nat)
    (hn : m.device_count ≤ MAX_DISPLAYS) :
    ∃ m', m'.spi.failAt = m.spi.failAt ∧
      m'.spi.trace = m.spi.trace ++ [expectedBroadcast m.device_count r d] ∧
      m'.device_count = m.device_count ∧
      m.broadcast r d =
        (if m.spi.failAt m.spi.trace.length then Outcome.err Error.SpiError m'
         else Outcome.ok m') := by
  have htake : (List.replicate MAX_DISPLAYS (r, d)).take m.device_count
      = List.replicate m.device_count (r, d) := by
    rw [List.take_replicate]
    congr 1
    omega
  obtain ⟨B, hBlen, houts, hpairs, heq⟩ :=
    write_all_registers_ok m (List.replicate m.device_count (r, d))
      (by simpa using hn) hn
  simp only [List.length_replicate] at houts hpairs
  have hw : B.take (m.device_count * 2) = expectedBroadcast m.device_count r d := by
    apply list_ext_getD
    · rw [List.length_take, hBlen, expectedBroadcast_length]
      omega
    · intro j hj
      have hj2 : j < m.device_count * 2 := by
        rw [List.length_take, hBlen] at hj
        omega
      rw [getD_take _ _ _ _ hj2, expectedBroadcast_getD m.device_count r d j (by omega)]
      have hpk := hpairs (j / 2) (by omega)
      rw [getD_replicate, if_pos (by omega : m.device_count - 1 - j / 2 < m.device_count)] at hpk
      rcases Nat.mod_two_eq_zero_or_one j with hm | hm
      · rw [if_pos hm, show j = j / 2 * 2 by omega]
        exact hpk.1
      · rw [if_neg (by omega), show j = j / 2 * 2 + 1 by omega]
        exact hpk.2
  refine ⟨afterWrite m B, rfl, ?_, rfl, ?_⟩
  · simp only [afterWrite]
    rw [hw]
  · simp only [Max7219.broadcast, if_pos hn, htake]
    exact heq


lemma stepOK_same (m : Max7219) (res : Outcome)
    (h1 : res.mstate.device_count = m.device_count)
    (h2 : res.mstate.spi = m.spi) : StepOK m res :=
  ⟨h1, by rw [h2], [], by rw [h2]; simp, by simp⟩

lemma fillOps_ok_length (l : List (Register × Nat)) : ∀ (buf : List Nat) (i : Nat) (B : List Nat),
    fillOps buf i l = .ok B → B.length = buf.length := by
  induction l with
  | nil =>
    intro buf i B h
    simp only [fillOps] at h
    cases h
    rfl
  | cons p rest ih =>
    intro buf i B h
    obtain ⟨r, d⟩ := p
    by_cases c1 : i * 2 < buf.length
    · by_cases c2 : i * 2 + 1 < (buf.set (i * 2) r.addr).length
      · simp only [fillOps, if_pos c1, if_pos c2] at h
        have := ih ((buf.set (i * 2) r.addr).set (i * 2 + 1) d) (i + 1) B h
        simpa using this
      · simp only [fillOps, if_pos c1, if_neg c2] at h
        cases h
    · simp only [fillOps, if_neg c1] at h
      cases h

lemma stepOK_write_all_registers (m : Max7219) (ops : List (Register × Nat)) :
    StepOK m (m.write_all_registers ops) := by
  cases hf : fillOps (List.replicate (MAX_DISPLAYS * 2) 0) 0 ops.reverse with
  | error b =>
    apply stepOK_same <;> simp only [Max7219.write_all_registers, hf, Outcome.mstate]
  | ok B =>
    have hBlen : B.length = MAX_DISPLAYS * 2 := by
      simpa using fillOps_ok_length ops.reverse _ 0 B hf
    by_cases c3 : m.device_count * 2 ≤ B.length
    · simp only [Max7219.write_all_registers, hf]
      rw [if_pos c3]
      by_cases hb : m.spi.failAt m.spi.trace.length <;>
        simp only [SpiState.write, hb, if_pos, if_neg, if_true, if_false, Bool.false_eq_true,
          reduceIte] <;>
        exact ⟨rfl, rfl, [B.take (m.device_count * 2)], rfl,
          by
            intro w hw
            simp only [List.mem_singleton] at hw
            subst hw
            rw [List.length_take]
            omega⟩
    · simp only [Max7219.write_all_registers, hf]
      rw [if_neg c3]
      exact stepOK_same _ _ rfl rfl




lemma runSteps_nil (m : Max7219) : m.runSteps [] = .ok m := rfl

lemma runSteps_cons (m : Max7219) (r : Register) (d : Nat) (rest : List (Register × Nat)) :
    m.runSteps ((r, d) :: rest) = andThen (m.broadcast r d) (fun m' => m'.runSteps rest) := by
  cases h : m.broadcast r d <;> simp [Max7219.runSteps, andThen, h]

lemma clearAllLoop_eq (rs : List Register) : ∀ m : Max7219,
    m.clearAllLoop rs = m.runSteps (rs.map (fun r => (r, 0))) := by
  induction rs with
  | nil => intro m; rfl
  | cons r rest ih =>
    intro m
    rw [List.map_cons, runSteps_cons]
    cases h : m.broadcast r 0x00 with
    | ok m' => simp [Max7219.clearAllLoop, andThen, h, ih m']
    | err e m' => simp [Max7219.clearAllLoop, andThen, h]
    | panicked m' => simp [Max7219.clearAllLoop, andThen, h]

lemma init_eq_runSteps (m : Max7219) : m.init = m.runSteps initSteps := by
  have htest : ∀ mx : Max7219, mx.test_all false = mx.broadcast .DisplayTest 0 := by
    intro mx
    simp [Max7219.test_all]
  have hscan : ∀ mx : Max7219, mx.set_scan_limit_all NUM_DIGITS = mx.broadcast .ScanLimit 7 := by
    intro mx
    simp [Max7219.set_scan_limit_all, NUM_DIGITS]
  have hdm : ∀ mx : Max7219,
      mx.set_decode_mode_all DecodeMode.NoDecode = mx.broadcast .DecodeMode 0 := by
    intro mx
    rfl
  simp only [Max7219.init, Max7219.power_on, htest, hscan, hdm, Max7219.clear_all,
    clearAllLoop_eq, initSteps, Register.digits, List.map_cons, List.map_nil,
    List.cons_append, List.nil_append, runSteps_cons, runSteps_nil]

lemma write_device_register_big (m : Max7219) (i : Nat) (r : Register) (d : Nat)
    (hge : ¬ i ≥ m.device_count) (hn : MAX_DISPLAYS < m.device_count) :
    ∃ mp, m.write_device_register i r d = .panicked mp ∧ mp.spi = m.spi ∧
      mp.device_count = m.device_count := by
  by_cases c1 : i * 2 < (List.replicate (MAX_DISPLAYS * 2) (0 : Nat)).length
  · by_cases c2 : i * 2 + 1 <
        ((List.replicate (MAX_DISPLAYS * 2) (0 : Nat)).set (i * 2) r.addr).length
    · have c3 : ¬ (m.device_count * 2 ≤
          ((((List.replicate (MAX_DISPLAYS * 2) (0 : Nat)).set (i * 2) r.addr)).set
            (i * 2 + 1) d).length) := by
        simp only [List.length_set, List.length_replicate]
        omega
      simp only [Max7219.write_device_register, if_neg hge, if_pos c1, if_pos c2]
      rw [if_neg c3]
      exact ⟨_, rfl, rfl, rfl⟩
    · simp only [Max7219.write_device_register, if_neg hge, if_pos c1, if_neg c2]
      exact ⟨_, rfl, rfl, rfl⟩
  · simp only [Max7219.write_device_register, if_neg hge, if_neg c1]
    exact ⟨_, rfl, rfl, rfl⟩

lemma stepOK_write_device_register (m : Max7219) (i : Nat) (r : Register) (d : Nat) :
    StepOK m (m.write_device_register i r d) := by
  by_cases hge : i ≥ m.device_count
  · rw [write_device_register_invalid m i r d hge]
    exact stepOK_same _ _ rfl rfl
  · by_cases hn : m.device_count ≤ MAX_DISPLAYS
    · rw [write_device_register_valid m i r d (by omega) hn]
      have hlenw : ∀ w ∈ [(wdrBuffer i r d).take (m.device_count * 2)],
          w.length = 2 * m.device_count := by
        intro w hw
        simp only [List.mem_singleton] at hw
        subst hw
        rw [List.length_take]
        simp only [wdrBuffer, List.length_set, List.length_replicate]
        omega
      by_cases hb : m.spi.failAt m.spi.trace.length
      · rw [if_pos hb]
        exact ⟨rfl, rfl, [(wdrBuffer i r d).take (m.device_count * 2)], rfl, hlenw⟩
      · rw [if_neg hb]
        exact ⟨rfl, rfl, [(wdrBuffer i r d).take (m.device_count * 2)], rfl, hlenw⟩
    · obtain ⟨mp, hp, hspi, hdc⟩ := write_device_register_big m i r d hge (by omega)
      rw [hp]
      exact stepOK_same _ _ hdc hspi

lemma stepOK_broadcast (m : Max7219) (r : Register) (d : Nat) :
    StepOK m (m.broadcast r d) := by
  by_cases hn : m.device_count ≤ MAX_DISPLAYS
  · simp only [Max7219.broadcast, if_pos hn]
    exact stepOK_write_all_registers _ _
  · simp only [Max7219.broadcast, if_neg hn]
    exact stepOK_same _ _ rfl rfl

lemma stepOK_trans (m m1 : Max7219) (res : Outcome)
    (hdc : m1.device_count = m.device_count)
    (hfa : m1.spi.failAt = m.spi.failAt)
    (htr : ∃ new1, m1.spi.trace = m.spi.trace ++ new1 ∧
      ∀ w ∈ new1, w.length = 2 * m.device_count)
    (h2 : StepOK m1 res) : StepOK m res := by
  obtain ⟨new1, ht1, hl1⟩ := htr
  obtain ⟨a2, b2, new2, t2, l2⟩ := h2
  refine ⟨a2.trans hdc, b2.trans hfa, new1 ++ new2, ?_, ?_⟩
  · rw [t2, ht1, List.append_assoc]
  · intro w hw
    rcases List.mem_append.mp hw with h | h
    · exact hl1 w h
    · rw [l2 w h, hdc]

lemma stepOK_of_eq (m : Max7219) (res res' : Outcome) (h : res = res')
    (hok : StepOK m res') : StepOK m res := by rw [h]; exact hok

lemma stepOK_clearDisplayLoop (rs : List Register) : ∀ (m : Max7219) (i : Nat),
    StepOK m (m.clearDisplayLoop i rs) := by
  induction rs with
  | nil => intro m i; exact stepOK_same _ _ rfl rfl
  | cons r rest ih =>
    intro m i
    have hstep := stepOK_write_device_register m i r 0x00
    cases h : m.write_device_register i r 0x00 with
    | ok m' =>
      rw [h] at hstep
      obtain ⟨a, b, new1, t1, l1⟩ := hstep
      simp only [Max7219.clearDisplayLoop, h]
      exact stepOK_trans m m' _ a b ⟨new1, t1, l1⟩ (ih m' i)
    | err e m' =>
      simp only [Max7219.clearDisplayLoop, h]
      rw [h] at hstep
      exact hstep
    | panicked m' =>
      simp only [Max7219.clearDisplayLoop, h]
      rw [h] at hstep
      exact hstep

lemma stepOK_runSteps (steps : List (Register × Nat)) : ∀ m : Max7219,
    StepOK m (m.runSteps steps) := by
  induction steps with
  | nil => intro m; exact stepOK_same _ _ rfl rfl
  | cons p rest ih =>
    intro m
    obtain ⟨r, d⟩ := p
    have hstep := stepOK_broadcast m r d
    rw [runSteps_cons]
    cases h : m.broadcast r d with
    | ok m' =>
      rw [h] at hstep
      obtain ⟨a, b, new1, t1, l1⟩ := hstep
      simp only [andThen]
      exact stepOK_trans m m' _ a b ⟨new1, t1, l1⟩ (ih m')
    | err e m' =>
      simp only [andThen]
      rw [h] at hstep
      exact hstep
    | panicked m' =>
      simp only [andThen]
      rw [h] at hstep
      exact hstep

lemma stepOK_clearAllLoop (rs : List Register) (m : Max7219) :
    StepOK m (m.clearAllLoop rs) := by
  rw [clearAllLoop_eq]
  exact stepOK_runSteps _ m

lemma runSteps_ok (steps : List (Register × Nat)) : ∀ m : Max7219,
    m.device_count ≤ MAX_DISPLAYS →
    (∀ j, j < steps.length → m.spi.failAt (m.spi.trace.length + j) = false) →
    ∃ m', m.runSteps steps = .ok m' ∧ m'.spi.failAt = m.spi.failAt ∧
      m'.spi.trace = m.spi.trace ++ expectedWrites m.device_count steps ∧
      m'.device_count = m.device_count := by
  induction steps with
  | nil =>
    intro m _ _
    exact ⟨m, rfl, rfl, by simp [expectedWrites], rfl⟩
  | cons p rest ih =>
    intro m hn hfail
    obtain ⟨r, d⟩ := p
    obtain ⟨m1, hfa1, htr1, hdc1, hbe⟩ := broadcast_spec m r d hn
    have hf0 : m.spi.failAt m.spi.trace.length = false := by
      have := hfail 0 (by simp)
      simpa using this
    rw [hf0] at hbe
    have hbe' : m.broadcast r d = .ok m1 := by rw [hbe]; simp
    obtain ⟨m2, hrun, hfa2, htr2, hdc2⟩ := ih m1 (by rw [hdc1]; exact hn)
      (by
        intro j hj
        have harith : (m.spi.trace ++ [expectedBroadcast m.device_count r d]).length + j
            = m.spi.trace.length + (j + 1) := by simp; omega
        rw [hfa1, htr1, harith]
        exact hfail (j + 1) (by simp only [List.length_cons]; omega))
    refine ⟨m2, ?_, hfa2.trans hfa1, ?_, hdc2.trans hdc1⟩
    · rw [runSteps_cons, hbe']
      simpa [andThen] using hrun
    · rw [htr2, htr1, hdc1, List.append_assoc]
      simp [expectedWrites]

lemma runSteps_err (steps : List (Register × Nat)) : ∀ (m : Max7219) (j : Nat),
    m.device_count ≤ MAX_DISPLAYS → j < steps.length →
    (∀ i, i < j → m.spi.failAt (m.spi.trace.length + i) = false) →
    m.spi.failAt (m.spi.trace.length + j) = true →
    ∃ m', m.runSteps steps = .err .SpiError m' ∧
      m'.spi.trace = m.spi.trace ++ (expectedWrites m.device_count steps).take (j + 1) ∧
      m'.spi.failAt = m.spi.failAt ∧ m'.device_count = m.device_count := by
  induction steps with
  | nil => intro m j _ hj _ _; simp at hj
  | cons p rest ih =>
    intro m j hn hj hprev hfj
    obtain ⟨r, d⟩ := p
    obtain ⟨m1, hfa1, htr1, hdc1, hbe⟩ := broadcast_spec m r d hn
    cases j with
    | zero =>
      rw [show m.spi.trace.length + 0 = m.spi.trace.length from by omega] at hfj
      rw [hfj] at hbe
      have hbe' : m.broadcast r d = .err .SpiError m1 := by rw [hbe]; simp
      refine ⟨m1, ?_, ?_, hfa1, hdc1⟩
      · rw [runSteps_cons, hbe']
        rfl
      · rw [htr1]
        simp [expectedWrites]
    | succ j' =>
      have hf0 : m.spi.failAt m.spi.trace.length = false := by
        have := hprev 0 (by omega)
        simpa using this
      rw [hf0] at hbe
      have hbe' : m.broadcast r d = .ok m1 := by rw [hbe]; simp
      have harith : ∀ k : Nat,
          (m.spi.trace ++ [expectedBroadcast m.device_count r d]).length + k
            = m.spi.trace.length + (k + 1) := by
        intro k
        simp
        omega
      obtain ⟨m2, hrun, htr2, hfa2, hdc2⟩ := ih m1 j' (by rw [hdc1]; exact hn)
        (by simp only [List.length_cons] at hj; omega)
        (by
          intro i hi
          rw [hfa1, htr1, harith i]
          exact hprev (i + 1) (by omega))
        (by
          rw [hfa1, htr1, harith j']
          exact hfj)
      refine ⟨m2, ?_, ?_, hfa2.trans hfa1, hdc2.trans hdc1⟩
      · rw [runSteps_cons, hbe']
        simpa [andThen] using hrun
      · rw [htr2, htr1, hdc1, List.append_assoc]
        simp [expectedWrites, List.take_succ_cons]

lemma mstate_if (b : Prop) [Decidable b] (e : Error) (m' : Max7219) :
    (if b then Outcome.err e m' else Outcome.ok m').mstate = m' := by
  split <;> rfl

lemma writesOf_singleton (m m' : Max7219) (res : Outcome) (w : List Nat)
    (hres : res.mstate = m') (htr : m'.spi.trace = m.spi.trace ++ [w]) :
    writesOf m res = [w] := by
  simp only [writesOf, hres, htr]
  exact List.drop_left _ _

lemma writesOf_err_self (m : Max7219) (e : Error) :
    writesOf m (Outcome.err e m) = [] := by
  simp only [writesOf, Outcome.mstate]
  exact List.drop_length _

lemma writesOf_len_of_stepOK (m : Max7219) (res : Outcome) (h : StepOK m res) :
    ∀ w ∈ writesOf m res, w.length = 2 * m.device_count := by
  obtain ⟨_, _, new, htr, hlen⟩ := h
  intro w hw
  apply hlen
  simp only [writesOf, htr] at hw
  rwa [List.drop_left] at hw

lemma wdrBuffer_take_length (i : Nat) (r : Register) (d : Nat) (n : Nat)
    (hn : n ≤ MAX_DISPLAYS) :
    ((wdrBuffer i r d).take (n * 2)).length = 2 * n := by
  rw [List.length_take]
  simp only [wdrBuffer, List.length_set, List.length_replicate]
  omega

lemma wdrBuffer_take_getD (i : Nat) (r : Register) (d : Nat) (n : Nat)
    (hi : i < n) (hn : n ≤ MAX_DISPLAYS) :
    ((wdrBuffer i r d).take (n * 2)).getD (i * 2) 0 = r.addr ∧
    ((wdrBuffer i r d).take (n * 2)).getD (i * 2 + 1) 0 = d ∧
    (∀ j, j < 2 * n → j ≠ i * 2 → j ≠ i * 2 + 1 →
      ((wdrBuffer i r d).take (n * 2)).getD j 0 = 0) := by
  refine ⟨?_, ?_, ?_⟩
  · rw [getD_take _ _ _ _ (by omega : i * 2 < n * 2)]
    simp only [wdrBuffer]
    rw [getD_set_ne _ _ _ _ _ (by omega),
      getD_set_self _ _ _ _ (by simp only [List.length_replicate]; omega)]
  · rw [getD_take _ _ _ _ (by omega : i * 2 + 1 < n * 2)]
    simp only [wdrBuffer]
    rw [getD_set_self _ _ _ _
      (by simp only [List.length_set, List.length_replicate]; omega)]
  · intro j hj hj1 hj2
    rw [getD_take _ _ _ _ (by omega : j < n * 2)]
    simp only [wdrBuffer]
    rw [getD_set_ne _ _ _ _ _ (by omega), getD_set_ne _ _ _ _ _ (by omega), getD_replicate]
    split <;> rfl

lemma wdr_writesOf (m : Max7219) (i : Nat) (r : Register) (d : Nat)
    (hi : i < m.device_count) (hn : m.device_count ≤ MAX_DISPLAYS) :
    writesOf m (m.write_device_register i r d) =
      [(wdrBuffer i r d).take (m.device_count * 2)] := by
  rw [write_device_register_valid m i r d hi hn]
  exact writesOf_singleton m (afterWrite m (wdrBuffer i r d)) _ _ (mstate_if _ _ _) rfl

lemma broadcast_writesOf (m : Max7219) (r : Register) (d : Nat)
    (hn : m.device_count ≤ MAX_DISPLAYS) :
    writesOf m (m.broadcast r d) = [expectedBroadcast m.device_count r d] := by
  obtain ⟨m', hfa, htr, hdc, hbe⟩ := broadcast_spec m r d hn
  rw [hbe]
  exact writesOf_singleton m m' _ _ (mstate_if _ _ _) htr

/-- C1, counterexample: the claim "device_count lies in [1, MAX_DISPLAYS] for
every reachable state" is false — `new` followed by `with_device_count 0` is
accepted (the source checks only `count > MAX_DISPLAYS`) and yields a reachable
state with `device_count = 0`. -/
theorem c1_device_count_zero_reachable :
    Reached badDriver ∧
      ¬ (1 ≤ badDriver.device_count ∧ badDriver.device_count ≤ MAX_DISPLAYS) := by
  constructor
  · exact Reached.reconfig (Max7219.new spi0) badDriver 0 (Reached.base spi0) rfl
  · decide

/-- C1, amended: for every reachable driver state (construction via `new` plus
any sequence of accepted `with_device_count` calls), `device_count` is at most
`MAX_DISPLAYS`; the lower bound 1 does not hold because `with_device_count`
accepts 0. -/
theorem c1_device_count_le_max (m : Max7219) (h : Reached m) :
    m.device_count ≤ MAX_DISPLAYS := by
  induction h with
  | base spi => simp [Max7219.new, MAX_DISPLAYS]
  | reconfig mprev m' count hr hok ih =>
    by_cases hc : count > MAX_DISPLAYS
    · simp [Max7219.with_device_count, hc] at hok
    · simp only [Max7219.with_device_count, if_neg hc, Except.ok.injEq] at hok
      rw [← hok]
      show count ≤ MAX_DISPLAYS
      omega

theorem c1_device_count_le_max_witness :
    (Max7219.new spi0).device_count ≤ MAX_DISPLAYS :=
  c1_device_count_le_max (Max7219.new spi0) (Reached.base spi0)

/-- C2: for `device_index < device_count` (with the chain invariant
`device_count ≤ MAX_DISPLAYS`), `write_device_register` issues exactly one bus
write of `2 * device_count` bytes whose bytes at offsets `2i` and `2i + 1` are
the register address and the data byte, and every other transmitted byte is 0. -/
theorem c2_write_device_register_transaction (m : Max7219) (i : Nat) (r : Register) (d : Nat)
    (hi : i < m.device_count) (hn : m.device_count ≤ MAX_DISPLAYS) :
    ∃ w, writesOf m (m.write_device_register i r d) = [w] ∧
      w.length = 2 * m.device_count ∧
      w.getD (i * 2) 0 = r.addr ∧
      w.getD (i * 2 + 1) 0 = d ∧
      ∀ j, j < 2 * m.device_count → j ≠ i * 2 → j ≠ i * 2 + 1 → w.getD j 0 = 0 := by
  obtain ⟨h1, h2, h3⟩ := wdrBuffer_take_getD i r d m.device_count hi hn
  exact ⟨(wdrBuffer i r d).take (m.device_count * 2), wdr_writesOf m i r d hi hn,
    wdrBuffer_take_length i r d m.device_count hn, h1, h2, h3⟩

theorem c2_write_device_register_transaction_witness :
    ∃ w, writesOf demoDriver (demoDriver.write_device_register 0 Register.Shutdown 0x01) = [w] ∧
      w.length = 2 * demoDriver.device_count ∧
      w.getD (0 * 2) 0 = Register.Shutdown.addr ∧
      w.getD (0 * 2 + 1) 0 = 0x01 ∧
      ∀ j, j < 2 * demoDriver.device_count → j ≠ 0 * 2 → j ≠ 0 * 2 + 1 → w.getD j 0 = 0 :=
  c2_write_device_register_transaction demoDriver 0 Register.Shutdown 0x01
    (by decide) (by decide)

/-- C3: when the pair count equals the configured chain length,
`write_all_registers` issues exactly one bus write of `2 * device_count` bytes
holding the pairs in reverse caller order: pair `ops[n-1-k]` occupies offsets
`2k .. 2k+2`. -/
theorem c3_write_all_registers_reverse_order (m : Max7219) (ops : List (Register × Nat))
    (hlen : ops.length = m.device_count) (hn : m.device_count ≤ MAX_DISPLAYS) :
    ∃ w, writesOf m (m.write_all_registers ops) = [w] ∧
      w.length = 2 * m.device_count ∧
      ∀ k, k < m.device_count →
        w.getD (k * 2) 0 = (ops.getD (m.device_count - 1 - k) (Register.NoOp, 0)).1.addr ∧
        w.getD (k * 2 + 1) 0 = (ops.getD (m.device_count - 1 - k) (Register.NoOp, 0)).2 := by
  obtain ⟨B, hBlen, houts, hpairs, heq⟩ := write_all_registers_ok m ops (by omega) hn
  refine ⟨B.take (m.device_count * 2), ?_, ?_, ?_⟩
  · rw [heq]
    exact writesOf_singleton m (afterWrite m B) _ _ (mstate_if _ _ _) rfl
  · rw [List.length_take, hBlen]
    omega
  · intro k hk
    have hp := hpairs k (by omega)
    rw [hlen] at hp
    constructor
    · rw [getD_take _ _ _ _ (by omega : k * 2 < m.device_count * 2)]
      exact hp.1
    · rw [getD_take _ _ _ _ (by omega : k * 2 + 1 < m.device_count * 2)]
      exact hp.2

theorem c3_write_all_registers_reverse_order_witness :
    ∃ w, writesOf demoDriver
        (demoDriver.write_all_registers [(Register.Intensity, 0x03), (Register.Shutdown, 0x01)])
        = [w] ∧
      w.length = 2 * demoDriver.device_count ∧
      ∀ k, k < demoDriver.device_count →
        w.getD (k * 2) 0 =
          ([(Register.Intensity, 0x03), (Register.Shutdown, 0x01)].getD
            (demoDriver.device_count - 1 - k) (Register.NoOp, 0)).1.addr ∧
        w.getD (k * 2 + 1) 0 =
          ([(Register.Intensity, 0x03), (Register.Shutdown, 0x01)].getD
            (demoDriver.device_count - 1 - k) (Register.NoOp, 0)).2 :=
  c3_write_all_registers_reverse_order demoDriver
    [(Register.Intensity, 0x03), (Register.Shutdown, 0x01)] (by decide) (by decide)

/-- C4: for any `device_index ≥ device_count`, every device-scoped operation
returns `InvalidDeviceIndex` with the driver state (hence the bus trace)
unchanged; an `err`-with-original-state outcome contributes zero bus writes. -/
theorem c4_invalid_index_rejected (m : Max7219) (i : Nat) (r : Register)
    (d intensity limit : Nat) (mode : DecodeMode) (e : Bool)
    (hi : m.device_count ≤ i) (hint : intensity ≤ 0x0F)
    (hlim : 1 ≤ limit ∧ limit ≤ 8) :
    m.write_device_register i r d = .err .InvalidDeviceIndex m ∧
    m.power_on_device i = .err .InvalidDeviceIndex m ∧
    m.power_off_device i = .err .InvalidDeviceIndex m ∧
    m.test_device i e = .err .InvalidDeviceIndex m ∧
    m.clear_display i = .err .InvalidDeviceIndex m ∧
    m.set_intensity i intensity = .err .InvalidDeviceIndex m ∧
    m.set_device_scan_limit i limit = .err .InvalidDeviceIndex m ∧
    m.set_device_decode_mode i mode = .err .InvalidDeviceIndex m ∧
    writesOf m (Outcome.err Error.InvalidDeviceIndex m) = [] := by
  have hw : ∀ (r' : Register) (d' : Nat),
      m.write_device_register i r' d' = .err .InvalidDeviceIndex m :=
    fun r' d' => write_device_register_invalid m i r' d' hi
  refine ⟨hw r d, hw _ _, hw _ _, hw _ _, ?_, ?_, ?_, hw _ _, writesOf_err_self m _⟩
  · simp [Max7219.clear_display, Register.digits, Max7219.clearDisplayLoop, hw]
  · simp only [Max7219.set_intensity, if_neg (by omega : ¬ intensity > 0x0F)]
    exact hw _ _
  · simp only [Max7219.set_device_scan_limit, if_neg (not_not_intro hlim)]
    exact hw _ _

theorem c4_invalid_index_rejected_witness :
    demoDriver.write_device_register 2 Register.Shutdown 0x01 =
      .err .InvalidDeviceIndex demoDriver ∧
    demoDriver.power_on_device 2 = .err .InvalidDeviceIndex demoDriver ∧
    demoDriver.power_off_device 2 = .err .InvalidDeviceIndex demoDriver ∧
    demoDriver.test_device 2 true = .err .InvalidDeviceIndex demoDriver ∧
    demoDriver.clear_display 2 = .err .InvalidDeviceIndex demoDriver ∧
    demoDriver.set_intensity 2 0x05 = .err .InvalidDeviceIndex demoDriver ∧
    demoDriver.set_device_scan_limit 2 4 = .err .InvalidDeviceIndex demoDriver ∧
    demoDriver.set_device_decode_mode 2 DecodeMode.NoDecode =
      .err .InvalidDeviceIndex demoDriver ∧
    writesOf demoDriver (Outcome.err Error.InvalidDeviceIndex demoDriver) = [] :=
  c4_invalid_index_rejected demoDriver 2 Register.Shutdown 0x01 0x05 4
    DecodeMode.NoDecode true (by decide) (by decide) (by decide)

/-- C5: every bus write issued by any driver operation transmits exactly
`2 * device_count` bytes, for the `device_count` configured at call time. -/
theorem c5_transaction_size (m : Max7219) :
    (∀ i r d, ∀ w ∈ writesOf m (m.write_device_register i r d),
      w.length = 2 * m.device_count) ∧
    (∀ ops, ∀ w ∈ writesOf m (m.write_all_registers ops), w.length = 2 * m.device_count) ∧
    (∀ w ∈ writesOf m m.power_on, w.length = 2 * m.device_count) ∧
    (∀ w ∈ writesOf m m.power_off, w.length = 2 * m.device_count) ∧
    (∀ i, ∀ w ∈ writesOf m (m.power_on_device i), w.length = 2 * m.device_count) ∧
    (∀ i, ∀ w ∈ writesOf m (m.power_off_device i), w.length = 2 * m.device_count) ∧
    (∀ i e, ∀ w ∈ writesOf m (m.test_device i e), w.length = 2 * m.device_count) ∧
    (∀ e, ∀ w ∈ writesOf m (m.test_all e), w.length = 2 * m.device_count) ∧
    (∀ i, ∀ w ∈ writesOf m (m.clear_display i), w.length = 2 * m.device_count) ∧
    (∀ w ∈ writesOf m m.clear_all, w.length = 2 * m.device_count) ∧
    (∀ i x, ∀ w ∈ writesOf m (m.set_intensity i x), w.length = 2 * m.device_count) ∧
    (∀ x, ∀ w ∈ writesOf m (m.set_intensity_all x), w.length = 2 * m.device_count) ∧
    (∀ i l, ∀ w ∈ writesOf m (m.set_device_scan_limit i l),
      w.length = 2 * m.device_count) ∧
    (∀ l, ∀ w ∈ writesOf m (m.set_scan_limit_all l), w.length = 2 * m.device_count) ∧
    (∀ i md, ∀ w ∈ writesOf m (m.set_device_decode_mode i md),
      w.length = 2 * m.device_count) ∧
    (∀ md, ∀ w ∈ writesOf m (m.set_decode_mode_all md), w.length = 2 * m.device_count) ∧
    (∀ w ∈ writesOf m m.init, w.length = 2 * m.device_count) := by
  have W := writesOf_len_of_stepOK m
  have hwdr : ∀ i r d, ∀ w ∈ writesOf m (m.write_device_register i r d),
      w.length = 2 * m.device_count :=
    fun i r d => W _ (stepOK_write_device_register m i r d)
  have hbc : ∀ r d, ∀ w ∈ writesOf m (m.broadcast r d), w.length = 2 * m.device_count :=
    fun r d => W _ (stepOK_broadcast m r d)
  refine ⟨hwdr, fun ops => W _ (stepOK_write_all_registers m ops), hbc _ _, hbc _ _,
    fun i => hwdr i _ _, fun i => hwdr i _ _, fun i e => hwdr i _ _, fun e => hbc _ _,
    fun i => W _ (stepOK_clearDisplayLoop Register.digits m i),
    W _ (stepOK_clearAllLoop Register.digits m), ?_, fun x => hbc _ _, ?_, ?_,
    fun i md => hwdr i _ _, fun md => hbc _ _, ?_⟩
  · intro i x
    by_cases hx : x > 0x0F
    · simp only [Max7219.set_intensity, if_pos hx]
      exact W _ (stepOK_same m _ rfl rfl)
    · simp only [Max7219.set_intensity, if_neg hx]
      exact hwdr i _ _
  · intro i l
    by_cases hl : ¬ (1 ≤ l ∧ l ≤ 8)
    · simp only [Max7219.set_device_scan_limit, if_pos hl]
      exact W _ (stepOK_same m _ rfl rfl)
    · simp only [Max7219.set_device_scan_limit, if_neg hl]
      exact hwdr i _ _
  · intro l
    by_cases hl : ¬ (1 ≤ l ∧ l ≤ 8)
    · simp only [Max7219.set_scan_limit_all, if_pos hl]
      exact W _ (stepOK_same m _ rfl rfl)
    · simp only [Max7219.set_scan_limit_all, if_neg hl]
      exact hbc _ _
  · intro w hw
    rw [init_eq_runSteps] at hw
    exact W _ (stepOK_runSteps initSteps m) w hw

lemma expectedWrites_initSteps (n : Nat) :
    expectedWrites n initSteps =
      [expectedBroadcast n .Shutdown 0x01, expectedBroadcast n .DisplayTest 0x00,
       expectedBroadcast n .ScanLimit 7, expectedBroadcast n .DecodeMode 0x00,
       expectedBroadcast n .Digit0 0x00, expectedBroadcast n .Digit1 0x00,
       expectedBroadcast n .Digit2 0x00, expectedBroadcast n .Digit3 0x00,
       expectedBroadcast n .Digit4 0x00, expectedBroadcast n .Digit5 0x00,
       expectedBroadcast n .Digit6 0x00, expectedBroadcast n .Digit7 0x00] := by
  simp [expectedWrites, initSteps, Register.digits]

/-- C6: `init` issues, in order, a shutdown broadcast with 0x01, a display-test
broadcast with 0x00, a scan-limit broadcast with 7, a decode-mode broadcast
with 0x00, then eight clear broadcasts (Digit0..Digit7, data 0x00); if the
bus fails at step j (the first failure), `init` returns that error at once and
issues none of the later steps' writes. -/
theorem c6_init_sequence (m : Max7219) (hn : m.device_count ≤ MAX_DISPLAYS) :
    ((∀ j, j < 12 → m.spi.failAt (m.spi.trace.length + j) = false) →
      ∃ m', m.init = .ok m' ∧
        m'.spi.trace = m.spi.trace ++
          [expectedBroadcast m.device_count .Shutdown 0x01,
           expectedBroadcast m.device_count .DisplayTest 0x00,
           expectedBroadcast m.device_count .ScanLimit 7,
           expectedBroadcast m.device_count .DecodeMode 0x00,
           expectedBroadcast m.device_count .Digit0 0x00,
           expectedBroadcast m.device_count .Digit1 0x00,
           expectedBroadcast m.device_count .Digit2 0x00,
           expectedBroadcast m.device_count .Digit3 0x00,
           expectedBroadcast m.device_count .Digit4 0x00,
           expectedBroadcast m.device_count .Digit5 0x00,
           expectedBroadcast m.device_count .Digit6 0x00,
           expectedBroadcast m.device_count .Digit7 0x00]) ∧
    (∀ j, j < 12 →
      (∀ i, i < j → m.spi.failAt (m.spi.trace.length + i) = false) →
      m.spi.failAt (m.spi.trace.length + j) = true →
      ∃ m', m.init = .err .SpiError m' ∧
        m'.spi.trace = m.spi.trace ++
          ([expectedBroadcast m.device_count .Shutdown 0x01,
            expectedBroadcast m.device_count .DisplayTest 0x00,
            expectedBroadcast m.device_count .ScanLimit 7,
            expectedBroadcast m.device_count .DecodeMode 0x00,
            expectedBroadcast m.device_count .Digit0 0x00,
            expectedBroadcast m.device_count .Digit1 0x00,
            expectedBroadcast m.device_count .Digit2 0x00,
            expectedBroadcast m.device_count .Digit3 0x00,
            expectedBroadcast m.device_count .Digit4 0x00,
            expectedBroadcast m.device_count .Digit5 0x00,
            expectedBroadcast m.device_count .Digit6 0x00,
            expectedBroadcast m.device_count .Digit7 0x00]).take (j + 1)) := by
  constructor
  · intro hfail
    obtain ⟨m', hrun, _, htr, _⟩ := runSteps_ok initSteps m hn
      (fun j hj => hfail j (by simpa [initSteps, Register.digits] using hj))
    refine ⟨m', by rw [init_eq_runSteps]; exact hrun, ?_⟩
    rw [htr, expectedWrites_initSteps]
  · intro j hj hprev hfj
    obtain ⟨m', herr, htr, _, _⟩ := runSteps_err initSteps m j hn
      (by simpa [initSteps, Register.digits] using hj) hprev hfj
    refine ⟨m', by rw [init_eq_runSteps]; exact herr, ?_⟩
    rw [htr, expectedWrites_initSteps]

theorem c6_init_sequence_witness :
    (∀ j, j < 12 →
      (Max7219.new spi0).spi.failAt ((Max7219.new spi0).spi.trace.length + j) = false) ∧
    ∃ m', (Max7219.new spi0).init = .ok m' ∧
      m'.spi.trace = (Max7219.new spi0).spi.trace ++
        [expectedBroadcast (Max7219.new spi0).device_count .Shutdown 0x01,
         expectedBroadcast (Max7219.new spi0).device_count .DisplayTest 0x00,
         expectedBroadcast (Max7219.new spi0).device_count .ScanLimit 7,
         expectedBroadcast (Max7219.new spi0).device_count .DecodeMode 0x00,
         expectedBroadcast (Max7219.new spi0).device_count .Digit0 0x00,
         expectedBroadcast (Max7219.new spi0).device_count .Digit1 0x00,
         expectedBroadcast (Max7219.new spi0).device_count .Digit2 0x00,
         expectedBroadcast (Max7219.new spi0).device_count .Digit3 0x00,
         expectedBroadcast (Max7219.new spi0).device_count .Digit4 0x00,
         expectedBroadcast (Max7219.new spi0).device_count .Digit5 0x00,
         expectedBroadcast (Max7219.new spi0).device_count .Digit6 0x00,
         expectedBroadcast (Max7219.new spi0).device_count .Digit7 0x00] :=
  ⟨fun _ _ => rfl,
    (c6_init_sequence (Max7219.new spi0) (by decide)).1 (fun _ _ => rfl)⟩

/-- C7: both scan-limit setters reject limits outside `1..=8` with
`InvalidScanLimit` and untouched state, and inside the range they write the
data byte `limit - 1` to the scan-limit register (broadcast to every device,
or placed at the addressed device's offset). -/
theorem c7_scan_limit_range (m : Max7219) (i limit : Nat)
    (hn : m.device_count ≤ MAX_DISPLAYS) (hi : i < m.device_count) :
    (¬ (1 ≤ limit ∧ limit ≤ 8) →
      m.set_device_scan_limit i limit = .err .InvalidScanLimit m ∧
      m.set_scan_limit_all limit = .err .InvalidScanLimit m) ∧
    ((1 ≤ limit ∧ limit ≤ 8) →
      writesOf m (m.set_scan_limit_all limit) =
        [expectedBroadcast m.device_count .ScanLimit (limit - 1)] ∧
      ∃ w, writesOf m (m.set_device_scan_limit i limit) = [w] ∧
        w.getD (i * 2) 0 = Register.ScanLimit.addr ∧
        w.getD (i * 2 + 1) 0 = limit - 1) := by
  constructor
  · intro hbad
    constructor
    · simp only [Max7219.set_device_scan_limit, if_pos hbad]
    · simp only [Max7219.set_scan_limit_all, if_pos hbad]
  · intro hgood
    constructor
    · simp only [Max7219.set_scan_limit_all, if_neg (not_not_intro hgood)]
      exact broadcast_writesOf m .ScanLimit (limit - 1) hn
    · simp only [Max7219.set_device_scan_limit, if_neg (not_not_intro hgood)]
      obtain ⟨h1, h2, _⟩ := wdrBuffer_take_getD i .ScanLimit (limit - 1) m.device_count hi hn
      exact ⟨_, wdr_writesOf m i .ScanLimit (limit - 1) hi hn, h1, h2⟩

theorem c7_scan_limit_range_witness :
    writesOf demoDriver (demoDriver.set_scan_limit_all 4) =
      [expectedBroadcast demoDriver.device_count .ScanLimit (4 - 1)] ∧
    ∃ w, writesOf demoDriver (demoDriver.set_device_scan_limit 0 4) = [w] ∧
      w.getD (0 * 2) 0 = Register.ScanLimit.addr ∧
      w.getD (0 * 2 + 1) 0 = 4 - 1 :=
  (c7_scan_limit_range demoDriver 0 4 (by decide) (by decide)).2 (by decide)

/-- C8: the single-device intensity setter rejects values above 0x0F with no
bus write, and writes the pair `(Intensity, intensity)` for values in range;
the broadcast setter performs no range check and transmits any byte value
verbatim to every device. -/
theorem c8_intensity_check_asymmetry (m : Max7219) (i intensity : Nat)
    (hn : m.device_count ≤ MAX_DISPLAYS) (hi : i < m.device_count) :
    (0x0F < intensity → m.set_intensity i intensity = .err .InvalidIntensity m) ∧
    (intensity ≤ 0x0F →
      ∃ w, writesOf m (m.set_intensity i intensity) = [w] ∧
        w.getD (i * 2) 0 = Register.Intensity.addr ∧
        w.getD (i * 2 + 1) 0 = intensity) ∧
    writesOf m (m.set_intensity_all intensity) =
      [expectedBroadcast m.device_count .Intensity intensity] := by
  refine ⟨?_, ?_, ?_⟩
  · intro hbig
    simp only [Max7219.set_intensity, if_pos hbig]
  · intro hsmall
    simp only [Max7219.set_intensity, if_neg (by omega : ¬ intensity > 0x0F)]
    obtain ⟨h1, h2, _⟩ := wdrBuffer_take_getD i .Intensity intensity m.device_count hi hn
    exact ⟨_, wdr_writesOf m i .Intensity intensity hi hn, h1, h2⟩
  · exact broadcast_writesOf m .Intensity intensity hn

theorem c8_intensity_check_asymmetry_witness :
    demoDriver.set_intensity 0 0x10 = .err .InvalidIntensity demoDriver ∧
    writesOf demoDriver (demoDriver.set_intensity_all 0x10) =
      [expectedBroadcast demoDriver.device_count .Intensity 0x10] :=
  ⟨(c8_intensity_check_asymmetry demoDriver 0 0x10 (by decide) (by decide)).1 (by decide),
   (c8_intensity_check_asymmetry demoDriver 0 0x10 (by decide) (by decide)).2.2⟩

/-- C9: with at most `MAX_DISPLAYS` pairs (on a chain within bounds) the
buffer indexing of `write_all_registers` stays in bounds and the call cannot
panic; with more than `MAX_DISPLAYS` pairs the fill loop indexes out of bounds
and panics before any bus write occurs. -/
theorem c9_write_all_registers_panic_bound (m : Max7219) (ops : List (Register × Nat))
    (hn : m.device_count ≤ MAX_DISPLAYS) :
    (ops.length ≤ MAX_DISPLAYS → ∀ mp, m.write_all_registers ops ≠ .panicked mp) ∧
    (MAX_DISPLAYS < ops.length →
      ∃ mp, m.write_all_registers ops = .panicked mp ∧ mp.spi.trace = m.spi.trace) := by
  constructor
  · intro hops mp
    obtain ⟨B, _, _, _, heq⟩ := write_all_registers_ok m ops hops hn
    rw [heq]
    split
    · exact fun h => Outcome.noConfusion h
    · exact fun h => Outcome.noConfusion h
  · intro hops
    obtain ⟨b, hb⟩ := fillOps_err ops.reverse (List.replicate (MAX_DISPLAYS * 2) 0) 0
      (by
        intro hrev
        have hl := congrArg List.length hrev
        simp only [List.length_reverse, List.length_nil] at hl
        omega)
      (by
        simp only [List.length_replicate, List.length_reverse]
        omega)
    refine ⟨{ m with buffer := b }, ?_, rfl⟩
    simp only [Max7219.write_all_registers, hb]

theorem c9_write_all_registers_panic_bound_witness :
    MAX_DISPLAYS < (List.replicate 9 ((Register.NoOp : Register), (0 : Nat))).length ∧
    ∃ mp, demoDriver.write_all_registers (List.replicate 9 (Register.NoOp, 0)) =
        .panicked mp ∧ mp.spi.trace = demoDriver.spi.trace :=
  ⟨by decide,
   (c9_write_all_registers_panic_bound demoDriver (List.replicate 9 (Register.NoOp, 0))
     (by decide)).2 (by decide)⟩

/-- C10: every validation failure (`InvalidDeviceCount`, `InvalidDeviceIndex`,
`InvalidIntensity`, `InvalidScanLimit`) is raised before the buffer or the bus
is touched, so the error carries the driver state exactly as it was. -/
theorem c10_validation_error_state_unchanged (m : Max7219)
    (i count intensity limit : Nat) (r : Register) (d : Nat)
    (mode : DecodeMode) (e : Bool) :
    (MAX_DISPLAYS < count → m.with_device_count count = .error .InvalidDeviceCount) ∧
    (m.device_count ≤ i →
      m.write_device_register i r d = .err .InvalidDeviceIndex m ∧
      m.power_on_device i = .err .InvalidDeviceIndex m ∧
      m.power_off_device i = .err .InvalidDeviceIndex m ∧
      m.test_device i e = .err .InvalidDeviceIndex m ∧
      m.clear_display i = .err .InvalidDeviceIndex m ∧
      m.set_device_decode_mode i mode = .err .InvalidDeviceIndex m) ∧
    (0x0F < intensity → m.set_intensity i intensity = .err .InvalidIntensity m) ∧
    (intensity ≤ 0x0F → m.device_count ≤ i →
      m.set_intensity i intensity = .err .InvalidDeviceIndex m) ∧
    (¬ (1 ≤ limit ∧ limit ≤ 8) →
      m.set_device_scan_limit i limit = .err .InvalidScanLimit m ∧
      m.set_scan_limit_all limit = .err .InvalidScanLimit m) ∧
    ((1 ≤ limit ∧ limit ≤ 8) → m.device_count ≤ i →
      m.set_device_scan_limit i limit = .err .InvalidDeviceIndex m) := by
  refine ⟨?_, ?_, ?_, ?_, ?_, ?_⟩
  · intro hc
    simp only [Max7219.with_device_count, if_pos hc]
  · intro hi
    have hw : ∀ (r' : Register) (d' : Nat),
        m.write_device_register i r' d' = .err .InvalidDeviceIndex m :=
      fun r' d' => write_device_register_invalid m i r' d' hi
    refine ⟨hw r d, hw _ _, hw _ _, hw _ _, ?_, hw _ _⟩
    simp [Max7219.clear_display, Register.digits, Max7219.clearDisplayLoop, hw]
  · intro hbig
    simp only [Max7219.set_intensity, if_pos hbig]
  · intro hsmall hi
    simp only [Max7219.set_intensity, if_neg (by omega : ¬ intensity > 0x0F)]
    exact write_device_register_invalid m i _ intensity hi
  · intro hbad
    constructor
    · simp only [Max7219.set_device_scan_limit, if_pos hbad]
    · simp only [Max7219.set_scan_limit_all, if_pos hbad]
  · intro hgood hi
    simp only [Max7219.set_device_scan_limit, if_neg (not_not_intro hgood)]
    exact write_device_register_invalid m i _ (limit - 1) hi

theorem c10_validation_error_state_unchanged_witness :
    demoDriver.with_device_count 9 = .error .InvalidDeviceCount ∧
    demoDriver.write_device_register 5 Register.NoOp 0 = .err .InvalidDeviceIndex demoDriver ∧
    demoDriver.set_intensity 5 0x10 = .err .InvalidIntensity demoDriver ∧
    demoDriver.set_device_scan_limit 5 0 = .err .InvalidScanLimit demoDriver ∧
    demoDriver.set_scan_limit_all 0 = .err .InvalidScanLimit demoDriver :=
  have h := c10_validation_error_state_unchanged demoDriver 5 9 0x10 0
    Register.NoOp 0 DecodeMode.NoDecode true
  ⟨h.1 (by decide), (h.2.1 (by decide)).1, h.2.2.1 (by decide),
   (h.2.2.2.2.1 (by decide)).1, (h.2.2.2.2.1 (by decide)).2⟩
